import Mathlib

/-!
Shallow embedding of `src/fastapi_backup_server/sp_upload.c`, a command-line
client that signs on to a backup server, submits a backup job, polls the
task state, and signs off.  Strings are modelled as `List Char`; fixed-size
C buffers written through `snprintf` are modelled with explicit truncation
at the buffer capacity.  HTTP transport is an external collaborator: each
call site receives the transport result (`Option HttpResponse`, `none`
meaning a transport-level failure) as an explicit input.
-/

set_option maxRecDepth 10000
set_option maxHeartbeats 1600000

/-- Whitespace characters skipped by `extract_json_value` after the colon
(space, newline, tab — exactly the three the C loop tests). -/
def isWs (c : Char) : Bool :=
  c = ' ' || c = '\n' || c = '\t'

/-- Structural delimiters ending a bare (unquoted) JSON token in
`extract_json_value`: comma, closing brace, closing bracket. -/
def isDelim (c : Char) : Bool :=
  c = ',' || c = '\x7d' || c = ']'

/-- Whether `needle` is a prefix of `hay` (the test done at each position
by C `strstr`). -/
def isPre : List Char → List Char → Bool
  | [], _ => true
  | _ :: _, [] => false
  | a :: as, b :: bs => if a = b then isPre as bs else false

/-- C `strstr hay needle`: index of the first occurrence of `needle` in
`hay`, or `none`. -/
def findSub (needle : List Char) : List Char → Option Nat
  | [] => if isPre needle [] then some 0 else none
  | c :: rest =>
    if isPre needle (c :: rest) then some 0
    else (findSub needle rest).map (· + 1)

/-- Skip the leading whitespace (the `while (*start == ' ' || ...)` loop). -/
def skipWs : List Char → List Char
  | [] => []
  | c :: rest => if isWs c then skipWs rest else c :: rest

/-- Characters up to the next double quote (C `strchr(start, '"')`);
`none` when no closing quote exists (the C code returns NULL then). -/
def takeUntilQuote : List Char → Option (List Char)
  | [] => none
  | c :: rest => if c = '"' then some [] else (takeUntilQuote rest).map (c :: ·)

/-- Characters up to the next `,`, `}` or `]` (or end of input) — the bare
token branch of `extract_json_value`. -/
def takeBare : List Char → List Char
  | [] => []
  | c :: rest => if isDelim c then [] else c :: takeBare rest

/-- The search pattern `"key":` built by
`snprintf(search, sizeof(search), "\"%s\":", key)` — the 256-byte buffer
truncates it to 255 characters. -/
def searchFor (key : List Char) : List Char :=
  ('"' :: (key ++ ['"', ':'])).take 255

/-- Behaviour after the key's colon: quoted value → characters between the
quotes, otherwise a bare token up to the next delimiter. -/
def extractTail (after : List Char) : Option (List Char) :=
  match after with
  | [] => some []
  | c :: rest => if c = '"' then takeUntilQuote rest else some (takeBare (c :: rest))

/-- `extract_json_value(json, key)`: find `"key":`, skip whitespace, then
read a quoted or bare value; `none` models the C NULL (key absent, or an
unterminated quoted value). -/
def extract_json_value (json key : List Char) : Option (List Char) :=
  match findSub (searchFor key) json with
  | none => none
  | some i => extractTail (skipWs (json.drop (i + (searchFor key).length)))

def sessionIdKey : List Char := "sessionId".toList
def taskIdKey : List Char := "taskId".toList
def taskStateKey : List Char := "taskState".toList

/-- HTTP response as seen by the client: status code and raw body. -/
structure HttpResponse where
  code : Nat
  body : List Char
deriving DecidableEq

/-- Outcome of `sp_wait_for_task`: the three distinct exit paths of the C
loop (success return, failure return after the terminal-failure message,
fall-through timeout after the timeout message). -/
inductive WaitOutcome
  | success
  | failure (st : List Char)
  | timeout
deriving DecidableEq

/-- The `int` actually returned by the C function: 1 on success, 0 on both
terminal failure and timeout (the paths differ in their diagnostics). -/
def waitRet : WaitOutcome → Nat
  | .success => 1
  | .failure _ => 0
  | .timeout => 0

/-- What one loop iteration decides from one observed poll result. -/
inductive PollStep
  | done (o : WaitOutcome)
  | next
deriving DecidableEq

def sSuccess : List Char := "Success".toList
def sFailed : List Char := "Failed".toList
def sError : List Char := "Error".toList

/-- One iteration of the `sp_wait_for_task` loop body applied to the state
obtained this round (`none` = transport failure / no state). -/
def sp_poll_step (ts : Option (List Char)) : PollStep :=
  match ts with
  | none => .next
  | some st =>
    if st = sSuccess then .done .success
    else if st = sFailed ∨ st = sError then .done (.failure st)
    else .next

/-- The polling loop over the finite sequence of poll observations; the
empty list (attempts exhausted) is the timeout fall-through. -/
def sp_wait_loop : List (Option (List Char)) → WaitOutcome
  | [] => .timeout
  | p :: rest =>
    match sp_poll_step p with
    | .done o => o
    | .next => sp_wait_loop rest

/-- Number of status queries actually issued by the loop (every iteration
issues exactly one query, terminal iterations included). -/
def sp_wait_attempts : List (Option (List Char)) → Nat
  | [] => 0
  | p :: rest =>
    match sp_poll_step p with
    | .done _ => 1
    | .next => 1 + sp_wait_attempts rest

/-- `sp_wait_for_task` with the per-attempt observations given by `poll`:
`max_attempts = max_minutes * 12` is computed once up front. -/
def sp_wait_for_task (poll : Nat → Option (List Char)) (max_minutes : Nat) : WaitOutcome :=
  sp_wait_loop ((List.range (max_minutes * 12)).map poll)

/-- Number of status queries issued by `sp_wait_for_task`. -/
def sp_wait_queryCount (poll : Nat → Option (List Char)) (max_minutes : Nat) : Nat :=
  sp_wait_attempts ((List.range (max_minutes * 12)).map poll)

/-! ### Payload construction in `sp_start_backup`

The C code composes the JSON body into a fixed `malloc(8192)` buffer via a
sequence of `snprintf(payload + offset, 8192 - offset, ...)` calls, adding
the returned (untruncated) length to `offset` each time.  We model the
sequence of written pieces and the exact `snprintf` semantics: while
`offset + 1 <= cap` the call writes at most `cap - offset - 1` characters;
with `offset = cap` the size argument is 0 and nothing is written; once
`offset > cap` the C size argument `8192 - offset` is a negative `int`
converted to a huge `size_t`, an out-of-bounds write (undefined behaviour),
recorded here by the Boolean flag of the state (the model then writes
nothing, which is one arbitrary resolution of the UB). -/

/-- Buffer capacity of the payload buffer in `sp_start_backup`. -/
def CAP : Nat := 8192

/-- One `snprintf(payload + offset, cap - offset, s)` step on the state
(written content, offset, out-of-bounds flag). -/
def snprintfStep (cap : Nat) : List Char × Nat × Bool → List Char → List Char × Nat × Bool
  | (buf, off, ub), s =>
    if off + 1 ≤ cap then (buf ++ s.take (cap - (off + 1)), off + s.length, ub)
    else if off ≤ cap then (buf, off + s.length, ub)
    else (buf, off + s.length, true)

/-- The literal `"backupPath":"` preceding the backup path in the body. -/
def bpLit : List Char := "\"backupPath\":\"".toList

/-- The first `snprintf` piece: session id, backup name, fixed backup type
and backup path (no closing brace yet). -/
def headPiece (sid name path : List Char) : List Char :=
  "\x7b\"sessionId\":\"".toList ++ sid ++
  "\",\"backupName\":\"".toList ++ name ++
  "\",\"backupType\":\"ceph_downloads\",".toList ++ bpLit ++ path ++ ['"']

/-- The per-file pieces of the `fileList` array: each file path quoted,
followed by a comma except for the last entry. -/
def fileEntryPieces : List (List Char) → List (List Char)
  | [] => []
  | [f] => ['"' :: (f ++ ['"'])]
  | f :: g :: rest => ('"' :: (f ++ ['"', ','])) :: fileEntryPieces (g :: rest)

/-- The exact sequence of strings the C code feeds to `snprintf`, in
order. -/
def payloadPieces (sid name path : List Char) (files : List (List Char)) : List (List Char) :=
  headPiece sid name path ::
    (if 0 < files.length then
      ",\"fileList\":[".toList :: (fileEntryPieces files ++ ["]".toList, "\x7d".toList])
    else ["\x7d".toList])

/-- Final state after all `snprintf` calls of `sp_start_backup`. -/
def sp_payload_state (sid name path : List Char) (files : List (List Char)) :
    List Char × Nat × Bool :=
  (payloadPieces sid name path files).foldl (snprintfStep CAP) ([], 0, false)

/-- The body actually present in the buffer (and sent via
`CURLOPT_POSTFIELDS`). -/
def sp_payload_written (sid name path : List Char) (files : List (List Char)) : List Char :=
  (sp_payload_state sid name path files).1

/-- Whether some `snprintf` call started with `offset > 8192`, i.e. a
negative size argument — the out-of-bounds-write condition. -/
def sp_payload_oob (sid name path : List Char) (files : List (List Char)) : Bool :=
  (sp_payload_state sid name path files).2.2

/-- The intended (untruncated) JSON body: the plain concatenation of all
pieces. -/
def sp_payload_ideal (sid name path : List Char) (files : List (List Char)) : List Char :=
  (payloadPieces sid name path files).flatten

/-! ### Directory scan -/

/-- One directory entry as seen through `readdir`: its name and whether it
is a regular file (`d_type == DT_REG`). -/
structure DirEntry where
  name : List Char
  isReg : Bool
deriving DecidableEq

/-- A directory from the point of view of `scan_directory`: either
`opendir` fails, or it yields a finite entry sequence. -/
inductive DirState
  | unopenable
  | entries (es : List DirEntry)
deriving DecidableEq

/-- C `strrchr(name, '.')`: the suffix of `name` starting at its last dot,
if any. -/
def lastDotSuffix : List Char → Option (List Char)
  | [] => none
  | c :: rest =>
    match lastDotSuffix rest with
    | some s => some s
    | none => if c = '.' then some (c :: rest) else none

/-- The `.txt` filter: the suffix from the last dot must equal `.txt`. -/
def isTxtName (n : List Char) : Bool :=
  lastDotSuffix n = some (".txt".toList)

/-- Maximum number of collected files (`MAX_FILES`). -/
def MAX_FILES : Nat := 1000

/-- The `readdir` loop: regular `.txt` entries become
`dir_path ++ "/" ++ name` (truncated by the 1024-byte `full_path` buffer),
until `MAX_FILES` entries are collected. -/
def scanEntries (dp : List Char) : List DirEntry → Nat → List (List Char)
  | [], _ => []
  | e :: rest, count =>
    if count < MAX_FILES then
      if e.isReg && isTxtName e.name then
        (dp ++ '/' :: e.name).take 1023 :: scanEntries dp rest (count + 1)
      else scanEntries dp rest count
    else []

/-- `scan_directory(dir_path)`: an unopenable directory yields the empty
list (after a diagnostic print), otherwise the filtered entries. -/
def scan_directory (dir_path : List Char) (d : DirState) : List (List Char) :=
  match d with
  | .unopenable => []
  | .entries es => scanEntries dir_path es 0

/-! ### HTTP requests built by the client -/

/-- An HTTP request as configured on the curl handle: URL, header list and
POST body (empty for the GET requests). -/
structure HttpRequest where
  url : List Char
  headers : List (List Char)
  body : List Char
deriving DecidableEq

def ctJson : List Char := "Content-Type: application/json".toList
def acceptJson : List Char := "Accept: application/json".toList

/-- The `X-Session-Id` header (512-byte `session_header` buffer). -/
def sessionHeader (sid : List Char) : List Char :=
  ("X-Session-Id: ".toList ++ sid).take 511

/-- Sign-on request: POST `{server}/api/baclient/signon` with the node id
and password (2048-byte URL buffer, 1024-byte payload buffer). -/
def mkSignOnReq (server node pw : List Char) : HttpRequest :=
  { url := (server ++ "/api/baclient/signon".toList).take 2047
    headers := [ctJson, acceptJson]
    body := ("\x7b\"nodeId\":\"".toList ++ node ++ "\",\"password\":\"".toList ++ pw
              ++ "\"\x7d".toList).take 1023 }

/-- Backup-start request: POST `{server}/api/baclient/backup` with the
payload composed by `sp_start_backup`. -/
def mkBackupReq (server sid name path : List Char) (files : List (List Char)) : HttpRequest :=
  { url := (server ++ "/api/baclient/backup".toList).take 2047
    headers := [ctJson, acceptJson]
    body := sp_payload_written sid name path files }

/-- Status request: GET `{server}/api/baclient/task/{tid}/status`. -/
def mkStatusReq (server sid tid : List Char) : HttpRequest :=
  { url := (server ++ "/api/baclient/task/".toList ++ tid ++ "/status".toList).take 2047
    headers := [acceptJson, sessionHeader sid]
    body := [] }

/-- Task-detail request: GET `{server}/api/baclient/task/{tid}`. -/
def mkTaskDataReq (server sid tid : List Char) : HttpRequest :=
  { url := (server ++ "/api/baclient/task/".toList ++ tid).take 2047
    headers := [acceptJson, sessionHeader sid]
    body := [] }

/-- Sign-off request: POST `{server}/api/baclient/signoff` (512-byte
payload buffer). -/
def mkSignOffReq (server sid : List Char) : HttpRequest :=
  { url := (server ++ "/api/baclient/signoff".toList).take 2047
    headers := [ctJson]
    body := ("\x7b\"sessionId\":\"".toList ++ sid ++ "\"\x7d".toList).take 511 }

/-! ### Response handling of the individual calls -/

/-- `sp_sign_on`: on a transport failure or non-200/201 status, neither a
session id nor a task id is produced; on 200/201 both fields are extracted
from the body.  Result: (`*session_id`, returned task id). -/
def sp_sign_on (resp : Option HttpResponse) : Option (List Char) × Option (List Char) :=
  match resp with
  | none => (none, none)
  | some r =>
    if r.code = 200 ∨ r.code = 201 then
      (extract_json_value r.body sessionIdKey, extract_json_value r.body taskIdKey)
    else (none, none)

/-- Task id produced by `sp_start_backup` from the submit response:
requires transport success and status 200/201/202, then extracts
`taskId`. -/
def sp_start_backup_task (resp : Option HttpResponse) : Option (List Char) :=
  match resp with
  | none => none
  | some r =>
    if r.code = 200 ∨ r.code = 201 ∨ r.code = 202 then
      extract_json_value r.body taskIdKey
    else none

/-- `sp_get_task_status`: on transport success (any HTTP status code, the
C code does not check it) the `taskState` field of the body; on a
transport failure NULL, i.e. no state this round. -/
def sp_get_task_status (resp : Option HttpResponse) : Option (List Char) :=
  match resp with
  | none => none
  | some r => extract_json_value r.body taskStateKey

/-! ### The orchestrator (`main`) -/

/-- The run environment: configuration (environment variables and the
positional argument), the scanned directory, the timestamp-derived backup
name, and the transport results of each call the run may issue.
`backup_directory` (SP_BACKUP_DIR) and the sign-off transport outcome are
part of the environment even though `main` never reads them. -/
structure RunEnv where
  password : Option (List Char)
  server_url : List Char
  node_id : List Char
  backup_directory : List Char
  arg_dir : Option (List Char)
  dir : DirState
  now_name : List Char
  signOnResp : Option HttpResponse
  submitResp : Option HttpResponse
  pollResps : Nat → Option HttpResponse
  signOffFails : Bool

/-- Observable result of a run: the process exit status, the HTTP requests
issued in order, the number of `sp_sign_off` invocations, and whether the
no-files warning was printed. -/
structure RunResult where
  exit : Nat
  requests : List HttpRequest
  signOffCount : Nat
  warnedNoFiles : Bool
deriving DecidableEq

/-- Maximum wait passed by `main` to `sp_wait_for_task` (10 minutes). -/
def maxMinutes : Nat := 10

/-- `main` on the fields it actually reads (neither `SP_BACKUP_DIR` nor
the sign-off outcome appears among the parameters, mirroring that the C
`main` never uses them): missing password exits 1 before any request; an
empty scan warns and exits 0 with no request; a failed sign-on exits 1
with no sign-off; afterwards sign-off is issued on every path and the exit
status reflects the wait outcome. -/
def runMainCore (password : Option (List Char)) (server node : List Char)
    (arg_dir : Option (List Char)) (d : DirState) (now_name : List Char)
    (signOnResp submitResp : Option HttpResponse)
    (pollResps : Nat → Option HttpResponse) : RunResult :=
  match password with
  | none => ⟨1, [], 0, false⟩
  | some pw =>
    let dl := arg_dir.getD ("downloads".toList)
    let files := scan_directory dl d
    if files.length = 0 then ⟨0, [], 0, true⟩
    else
      let sonReq := mkSignOnReq server node pw
      match (sp_sign_on signOnResp).1 with
      | none => ⟨1, [sonReq], 0, false⟩
      | some sid =>
        let subReq := mkBackupReq server sid now_name dl files
        match sp_start_backup_task submitResp with
        | none => ⟨1, [sonReq, subReq, mkSignOffReq server sid], 1, false⟩
        | some tid =>
          let polls := (List.range (maxMinutes * 12)).map
            (fun i => sp_get_task_status (pollResps i))
          let succ := waitRet (sp_wait_loop polls)
          let statusReqs := List.replicate (sp_wait_attempts polls) (mkStatusReq server sid tid)
          let dataReqs := if succ ≠ 0 then [mkTaskDataReq server sid tid] else []
          ⟨if succ ≠ 0 then 0 else 1,
           sonReq :: subReq :: (statusReqs ++ dataReqs ++ [mkSignOffReq server sid]),
           1, false⟩

/-- The whole run on an environment. -/
def runMain (env : RunEnv) : RunResult :=
  runMainCore env.password env.server_url env.node_id env.arg_dir env.dir
    env.now_name env.signOnResp env.submitResp env.pollResps

/-! ### Fixtures used by witness theorems -/

def txtEntry : DirEntry := ⟨"notes.txt".toList, true⟩
def okDir : DirState := .entries [txtEntry]
def body200sid : HttpResponse := ⟨200, "\x7b\"sessionId\":\"SID1\",\"taskId\":\"T0\"\x7d".toList⟩
def bodyNoSid : HttpResponse := ⟨201, "\x7b\"taskId\":\"T0\"\x7d".toList⟩

/-- Base run environment: one `.txt` file, successful sign-on, submit
failing at the transport level, all polls failing. -/
def envBase : RunEnv :=
  { password := some ("pw".toList)
    server_url := "http://spserver:1580".toList
    node_id := "APPLEBEES".toList
    backup_directory := "/sp_backups/ceph_downloads".toList
    arg_dir := none
    dir := okDir
    now_name := "ceph_downloads_20251011_120000".toList
    signOnResp := some body200sid
    submitResp := none
    pollResps := fun _ => none
    signOffFails := false }

/-- A manifest of 700 scanned paths, large enough that the composed JSON
body (14834 bytes) cannot fit the fixed 8192-byte payload buffer. -/
def bigFiles : List (List Char) := List.replicate 700 ("downloads/file.txt".toList)

def c3sid : List Char := "SID1".toList
def c3path : List Char := "downloads".toList
def c3name : List Char := "ceph_downloads_20251011_120000".toList

/-- Sign-on answered 201 with a task id but no session id. -/
def envNoSid : RunEnv := { envBase with signOnResp := some bodyNoSid }

/-- The scanned directory opens but contains no `.txt` file. -/
def envEmptyDir : RunEnv := { envBase with dir := DirState.entries [] }

/-- The scanned directory cannot be opened. -/
def envUnopen : RunEnv := { envBase with dir := DirState.unopenable }

/-! ### Helper lemmas about the payload buffer -/

/-- The content written through the bounded `snprintf` steps never exceeds
`cap - 1` characters (the capacity minus the NUL terminator). -/
lemma snprintf_fold_len (cap : Nat) :
    ∀ (pieces : List (List Char)) (buf : List Char) (off : Nat) (ub : Bool),
      buf.length ≤ off → buf.length ≤ cap - 1 →
      (pieces.foldl (snprintfStep cap) (buf, off, ub)).1.length ≤ cap - 1 := by
  intro pieces
  induction pieces with
  | nil => intro buf off ub _ h2; simpa using h2
  | cons s rest ih =>
    intro buf off ub h1 h2
    simp only [List.foldl]
    by_cases hoff : off + 1 ≤ cap
    · have hstep : snprintfStep cap (buf, off, ub) s
          = (buf ++ s.take (cap - (off + 1)), off + s.length, ub) := by
        simp [snprintfStep, hoff]
      rw [hstep]
      have htk := List.length_take (cap - (off + 1)) s
      apply ih
      · simp only [List.length_append]
        omega
      · simp only [List.length_append]
        omega
    · by_cases hoff2 : off ≤ cap
      · have hstep : snprintfStep cap (buf, off, ub) s = (buf, off + s.length, ub) := by
          simp [snprintfStep, hoff, hoff2]
        rw [hstep]
        exact ih buf _ ub (by omega) h2
      · have hstep : snprintfStep cap (buf, off, ub) s = (buf, off + s.length, true) := by
          simp [snprintfStep, hoff, hoff2]
        rw [hstep]
        exact ih buf _ true (by omega) h2

/-- When everything fits below the capacity, the `snprintf` sequence
writes the full concatenation and never truncates nor overflows. -/
lemma snprintf_fold_exact (cap : Nat) (hcap : 1 ≤ cap) :
    ∀ (pieces : List (List Char)) (buf : List Char),
      buf.length + (pieces.map List.length).sum ≤ cap - 1 →
      pieces.foldl (snprintfStep cap) (buf, buf.length, false)
        = (buf ++ pieces.flatten, buf.length + (pieces.map List.length).sum, false) := by
  intro pieces
  induction pieces with
  | nil => intro buf _; simp
  | cons s rest ih =>
    intro buf hfit
    simp only [List.map_cons, List.sum_cons] at hfit
    have hoff : buf.length + 1 ≤ cap := by omega
    have hsl : s.length ≤ cap - (buf.length + 1) := by omega
    simp only [List.foldl]
    have hstep : snprintfStep cap (buf, buf.length, false) s
        = (buf ++ s, buf.length + s.length, false) := by
      simp [snprintfStep, hoff, List.take_of_length_le hsl]
    rw [hstep]
    have hlen : buf.length + s.length = (buf ++ s).length := by
      simp [List.length_append]
    rw [hlen]
    have hfit2 : (buf ++ s).length + (rest.map List.length).sum ≤ cap - 1 := by
      simp only [List.length_append]; omega
    rw [ih (buf ++ s) hfit2]
    simp [List.flatten_cons, List.append_assoc, List.length_append]
    omega

lemma fileEntryPieces_one (f : List Char) :
    fileEntryPieces [f] = ['"' :: (f ++ ['"'])] := rfl

lemma fileEntryPieces_cons2 (f g : List Char) (rest : List (List Char)) :
    fileEntryPieces (f :: g :: rest)
      = ('"' :: (f ++ ['"', ','])) :: fileEntryPieces (g :: rest) := rfl

/-- Sum of the file-entry piece lengths: one separator short of the sum of
the quoted-and-comma-terminated entry lengths. -/
lemma fileEntryPieces_len :
    ∀ (fs : List (List Char)) (f : List Char),
      ((fileEntryPieces (f :: fs)).map List.length).sum + 1
        = ((f :: fs).map (fun g => g.length + 3)).sum := by
  intro fs
  induction fs with
  | nil =>
    intro f
    simp [fileEntryPieces_one, List.length_append]
  | cons g gs ih =>
    intro f
    have h := ih g
    rw [fileEntryPieces_cons2]
    simp only [List.map_cons, List.sum_cons, List.length_cons, List.length_nil,
      List.length_append] at h ⊢
    omega

/-- Length of the intended JSON body for a nonempty manifest. -/
lemma ideal_len (sid name path f : List Char) (fs : List (List Char)) :
    (sp_payload_ideal sid name path (f :: fs)).length
      = (headPiece sid name path).length
        + ((f :: fs).map (fun g => g.length + 3)).sum + 14 := by
  have hlen : (0 : Nat) < (f :: fs).length := by simp
  have hentries := fileEntryPieces_len fs f
  simp only [sp_payload_ideal, payloadPieces, if_pos hlen, List.flatten_cons,
    List.flatten_append, List.length_append, List.length_flatten]
  have h13 : (",\"fileList\":[".toList).length = 13 := by decide
  have h1 : ("]".toList).length = 1 := by decide
  have h2 : ("\x7d".toList).length = 1 := by decide
  simp only [List.flatten_cons, List.flatten_nil, List.length_append, List.length_nil,
    List.append_nil, List.map_nil, List.sum_nil, h13, h1, h2]
  omega

/-- The buffer content of `sp_start_backup` holds at most 8191 characters,
whatever the manifest. -/
lemma sp_payload_written_le (sid name path : List Char) (files : List (List Char)) :
    (sp_payload_written sid name path files).length ≤ 8191 := by
  have h := snprintf_fold_len CAP (payloadPieces sid name path files) [] 0 false
    (by simp) (by simp [CAP])
  simpa [sp_payload_written, sp_payload_state, CAP] using h

/-- Every manifest entry sits inside one of the file-entry pieces. -/
lemma mem_fileEntryPieces_infix :
    ∀ (files : List (List Char)) (fl : List Char), fl ∈ files →
      ∃ p ∈ fileEntryPieces files, fl <:+: p := by
  intro files
  induction files with
  | nil => intro fl h; simp at h
  | cons f rest ih =>
    intro fl h
    cases rest with
    | nil =>
      have hf : fl = f := by simpa using h
      subst hf
      exact ⟨'"' :: (fl ++ ['"']), by simp [fileEntryPieces_one],
        ⟨['"'], ['"'], by simp⟩⟩
    | cons g gs =>
      rcases List.mem_cons.mp h with hf | hrest
      · subst hf
        exact ⟨'"' :: (fl ++ ['"', ',']), by simp [fileEntryPieces_cons2],
          ⟨['"'], ['"', ','], by simp⟩⟩
      · obtain ⟨p, hp, hinf⟩ := ih fl hrest
        exact ⟨p, by simp [fileEntryPieces_cons2, hp], hinf⟩

/-! ### Decoder lemmas -/

lemma skipWs_ws_append (w l : List Char) (h : ∀ c ∈ w, isWs c = true) :
    skipWs (w ++ l) = skipWs l := by
  induction w with
  | nil => simp
  | cons c cs ih =>
    have hc := h c (by simp)
    simp only [List.cons_append, skipWs, hc, if_true]
    exact ih (fun x hx => h x (by simp [hx]))

lemma skipWs_cons_false (c : Char) (l : List Char) (h : isWs c = false) :
    skipWs (c :: l) = c :: l := by
  simp [skipWs, h]

lemma takeUntilQuote_append (v r : List Char) (h : '"' ∉ v) :
    takeUntilQuote (v ++ '"' :: r) = some v := by
  induction v with
  | nil => simp [takeUntilQuote]
  | cons c cs ih =>
    have hc : ¬(c = '"') := by
      intro hh
      exact h (by simp [hh])
    simp only [List.cons_append, List.append_eq, takeUntilQuote, hc, if_false]
    rw [ih (fun hx => h (by simp [hx]))]
    rfl

lemma takeBare_append (u r : List Char) (d : Char)
    (hu : ∀ c ∈ u, isDelim c = false) (hd : isDelim d = true) :
    takeBare (u ++ d :: r) = u := by
  induction u with
  | nil => simp [takeBare, hd]
  | cons c cs ih =>
    have hc := hu c (by simp)
    simp only [List.cons_append, List.append_eq, takeBare, hc, Bool.false_eq_true, if_false]
    rw [ih (fun x hx => hu x (by simp [hx]))]

/-! ### Wait-loop lemmas -/

lemma sp_wait_attempts_le (l : List (Option (List Char))) :
    sp_wait_attempts l ≤ l.length := by
  induction l with
  | nil => simp [sp_wait_attempts]
  | cons p rest ih =>
    cases hp : sp_poll_step p with
    | done o =>
      have h1 : sp_wait_attempts (p :: rest) = 1 := by
        simp [sp_wait_attempts, hp]
      simp only [h1, List.length_cons]
      omega
    | next =>
      have h1 : sp_wait_attempts (p :: rest) = 1 + sp_wait_attempts rest := by
        simp [sp_wait_attempts, hp]
      simp only [h1, List.length_cons]
      omega

lemma sp_wait_loop_all_next (l : List (Option (List Char)))
    (h : ∀ p ∈ l, sp_poll_step p = .next) : sp_wait_loop l = .timeout := by
  induction l with
  | nil => rfl
  | cons p rest ih =>
    have hp := h p (by simp)
    simp only [sp_wait_loop, hp]
    exact ih (fun x hx => h x (by simp [hx]))

/-! ### Run-unfolding lemmas -/

lemma run_no_files (env : RunEnv) (pw : List Char) (hpw : env.password = some pw)
    (hscan : (scan_directory (env.arg_dir.getD ("downloads".toList)) env.dir).length = 0) :
    runMain env = ⟨0, [], 0, true⟩ := by
  unfold runMain runMainCore
  rw [hpw]
  simp only [hscan, if_true]

lemma run_signon_none (env : RunEnv) (pw : List Char) (hpw : env.password = some pw)
    (hscan : (scan_directory (env.arg_dir.getD ("downloads".toList)) env.dir).length ≠ 0)
    (hsid : (sp_sign_on env.signOnResp).1 = none) :
    runMain env = ⟨1, [mkSignOnReq env.server_url env.node_id pw], 0, false⟩ := by
  unfold runMain runMainCore
  rw [hpw]
  simp only [hscan, if_false, hsid]

lemma run_submit_none (env : RunEnv) (pw sid : List Char) (hpw : env.password = some pw)
    (hscan : (scan_directory (env.arg_dir.getD ("downloads".toList)) env.dir).length ≠ 0)
    (hsid : (sp_sign_on env.signOnResp).1 = some sid)
    (hsub : sp_start_backup_task env.submitResp = none) :
    runMain env = ⟨1,
      [mkSignOnReq env.server_url env.node_id pw,
        mkBackupReq env.server_url sid env.now_name (env.arg_dir.getD ("downloads".toList))
          (scan_directory (env.arg_dir.getD ("downloads".toList)) env.dir),
        mkSignOffReq env.server_url sid], 1, false⟩ := by
  unfold runMain runMainCore
  rw [hpw]
  simp only [hscan, if_false, hsid, hsub]

lemma run_submit_some (env : RunEnv) (pw sid tid : List Char) (hpw : env.password = some pw)
    (hscan : (scan_directory (env.arg_dir.getD ("downloads".toList)) env.dir).length ≠ 0)
    (hsid : (sp_sign_on env.signOnResp).1 = some sid)
    (hsub : sp_start_backup_task env.submitResp = some tid) :
    runMain env = ⟨(if waitRet (sp_wait_loop ((List.range (maxMinutes * 12)).map
        (fun i => sp_get_task_status (env.pollResps i)))) ≠ 0 then 0 else 1),
      mkSignOnReq env.server_url env.node_id pw ::
        mkBackupReq env.server_url sid env.now_name (env.arg_dir.getD ("downloads".toList))
          (scan_directory (env.arg_dir.getD ("downloads".toList)) env.dir) ::
        (List.replicate (sp_wait_attempts ((List.range (maxMinutes * 12)).map
            (fun i => sp_get_task_status (env.pollResps i))))
            (mkStatusReq env.server_url sid tid) ++
          (if waitRet (sp_wait_loop ((List.range (maxMinutes * 12)).map
              (fun i => sp_get_task_status (env.pollResps i)))) ≠ 0 then
            [mkTaskDataReq env.server_url sid tid] else []) ++
          [mkSignOffReq env.server_url sid]), 1, false⟩ := by
  unfold runMain runMainCore
  rw [hpw]
  simp only [hscan, if_false, hsid, hsub]

lemma runMain_ignores_backup_directory (env : RunEnv) (b : List Char) :
    runMain { env with backup_directory := b } = runMain env := by
  simp only [runMain]

lemma runMain_ignores_signoff_result (env : RunEnv) (b : Bool) :
    runMain { env with signOffFails := b } = runMain env := by
  simp only [runMain]

/-! ### Claim theorems -/

/-- C1: on each observed task state string, the wait loop returns
terminal-success exactly when the state is "Success", terminal-failure
(carrying the state) exactly when it is "Failed" or "Error", and on every
other state string this observation does not end the loop: the iteration
continues and the loop result is that of the remaining observations. -/
theorem C1_poll_state_classification : ∀ s : List Char,
    (sp_poll_step (some s) = .done .success ↔ s = sSuccess) ∧
    ((∃ st, sp_poll_step (some s) = .done (.failure st)) ↔ (s = sFailed ∨ s = sError)) ∧
    (s ≠ sSuccess → s ≠ sFailed → s ≠ sError →
      sp_poll_step (some s) = .next ∧
      ∀ rest, sp_wait_loop (some s :: rest) = sp_wait_loop rest) := by
  intro s
  by_cases h1 : s = sSuccess
  · subst h1
    refine ⟨by simp [sp_poll_step], ⟨?_, ?_⟩, fun hn _ _ => absurd rfl hn⟩
    · rintro ⟨st, hst⟩
      simp [sp_poll_step] at hst
    · rintro (h | h) <;> (exfalso; revert h; decide)
  · by_cases h2 : s = sFailed ∨ s = sError
    · have hstep : sp_poll_step (some s) = .done (.failure s) := by
        simp [sp_poll_step, h1, h2]
      refine ⟨?_, ?_, ?_⟩
      · rw [hstep]
        constructor
        · intro h
          simp at h
        · intro h
          exact absurd h h1
      · rw [hstep]
        exact ⟨fun _ => h2, fun _ => ⟨s, rfl⟩⟩
      · intro _ hf he
        rcases h2 with h | h
        exacts [absurd h hf, absurd h he]
    · have hstep : sp_poll_step (some s) = .next := by
        simp [sp_poll_step, h1, h2]
      refine ⟨?_, ?_, fun _ _ _ => ⟨hstep, fun rest => ?_⟩⟩
      · rw [hstep]
        constructor
        · intro h
          simp at h
        · intro h
          exact absurd h h1
      · rw [hstep]
        constructor
        · rintro ⟨st, hst⟩
          simp at hst
        · intro h
          exact absurd h h2
      · simp [sp_wait_loop, hstep]

/-- C1, witness: the three behaviours at the concrete states "Success",
"Failed" and "Pending". -/
theorem C1_poll_state_classification_witness :
    sp_poll_step (some sSuccess) = .done .success ∧
      (∃ st, sp_poll_step (some sFailed) = .done (.failure st)) ∧
      sp_wait_loop [some ("Pending".toList)] = sp_wait_loop [] :=
  ⟨(C1_poll_state_classification sSuccess).1.mpr rfl,
    (C1_poll_state_classification sFailed).2.1.mpr (Or.inl rfl),
    ((C1_poll_state_classification ("Pending".toList)).2.2 (by decide) (by decide)
      (by decide)).2 []⟩

/-- C2: the wait issues at most `max_minutes * 12` status queries (the
bound computed once at the start: the 10-minute maximum divided by the
fixed 5-second poll interval), and when no observation is terminal within
the bound the outcome is the distinct timeout exit — never the failure
exit, never the success exit. -/
theorem C2_attempt_bound_and_timeout : ∀ (poll : Nat → Option (List Char)) (m : Nat),
    sp_wait_queryCount poll m ≤ m * 12 ∧
    ((∀ i, i < m * 12 → sp_poll_step (poll i) = .next) →
      sp_wait_for_task poll m = .timeout ∧
      (∀ st, sp_wait_for_task poll m ≠ .failure st) ∧
      sp_wait_for_task poll m ≠ .success) := by
  intro poll m
  constructor
  · have h := sp_wait_attempts_le ((List.range (m * 12)).map poll)
    simpa [sp_wait_queryCount, List.length_map, List.length_range] using h
  · intro hall
    have hto : sp_wait_for_task poll m = .timeout := by
      unfold sp_wait_for_task
      apply sp_wait_loop_all_next
      intro p hp
      rw [List.mem_map] at hp
      obtain ⟨i, hi, rfl⟩ := hp
      exact hall i (by simpa using hi)
    refine ⟨hto, ?_, ?_⟩
    · intro st h
      rw [hto] at h
      simp at h
    · intro h
      rw [hto] at h
      simp at h

/-- C2, witness: one minute of polling with every transport call failing
ends in timeout after at most 12 queries. -/
theorem C2_attempt_bound_and_timeout_witness :
    sp_wait_for_task (fun _ => none) 1 = .timeout ∧
      sp_wait_queryCount (fun _ => none) 1 ≤ 1 * 12 :=
  ⟨((C2_attempt_bound_and_timeout (fun _ => none) 1).2 (fun _ _ => rfl)).1,
    (C2_attempt_bound_and_timeout (fun _ => none) 1).1⟩

/-- C5: a transport-level failure on a single status query (the status
call yielding no state) does not end the wait — that round decides to
continue, the loop result is that of the remaining attempts, and the
query is still counted, so the next attempt happens. -/
theorem C5_transport_blip_continues : ∀ rest : List (Option (List Char)),
    sp_get_task_status none = none ∧
    sp_poll_step none = .next ∧
    sp_wait_loop (none :: rest) = sp_wait_loop rest ∧
    sp_wait_attempts (none :: rest) = 1 + sp_wait_attempts rest := by
  intro rest
  refine ⟨rfl, rfl, ?_, ?_⟩ <;> simp [sp_wait_loop, sp_wait_attempts, sp_poll_step]

/-- C6: if the body contains `"key":` (first occurrence at `i`) followed,
after whitespace, by a quoted value, the decoder returns exactly the
characters between the quotes; followed by a bare token, it returns the
raw characters up to the next `,`, `}` or `]`; and when the key is not
present it returns `none` (absent), not an error. -/
theorem C6_decoder_extraction :
    (∀ (json key v rest w : List Char) (i : Nat),
        findSub (searchFor key) json = some i →
        (∀ c ∈ w, isWs c = true) →
        json.drop (i + (searchFor key).length) = w ++ '"' :: (v ++ '"' :: rest) →
        '"' ∉ v →
        extract_json_value json key = some v) ∧
    (∀ (json key u rest w : List Char) (c d : Char) (i : Nat),
        findSub (searchFor key) json = some i →
        (∀ x ∈ w, isWs x = true) →
        json.drop (i + (searchFor key).length) = w ++ (c :: u) ++ d :: rest →
        isWs c = false → c ≠ '"' →
        (∀ x ∈ c :: u, isDelim x = false) → isDelim d = true →
        extract_json_value json key = some (c :: u)) ∧
    (∀ json key : List Char,
        findSub (searchFor key) json = none → extract_json_value json key = none) := by
  refine ⟨?_, ?_, ?_⟩
  · intro json key v rest w i hfind hw hdrop hv
    unfold extract_json_value
    rw [hfind]
    show extractTail (skipWs (json.drop (i + (searchFor key).length))) = some v
    rw [hdrop, skipWs_ws_append _ _ hw, skipWs_cons_false _ _ (by decide)]
    simp only [extractTail, if_pos rfl]
    exact takeUntilQuote_append v rest hv
  · intro json key u rest w c d i hfind hw hdrop hcw hcq hu hd
    unfold extract_json_value
    rw [hfind]
    show extractTail (skipWs (json.drop (i + (searchFor key).length))) = some (c :: u)
    rw [hdrop, List.append_assoc, List.cons_append, skipWs_ws_append _ _ hw,
      skipWs_cons_false _ _ hcw]
    simp only [extractTail, hcq, if_false]
    rw [← List.cons_append]
    exact congrArg some (takeBare_append (c :: u) rest d hu hd)
  · intro json key hfind
    unfold extract_json_value
    rw [hfind]

/-- C6, witness: the decoder round-trips at concrete bodies — a quoted
string value, a bare numeric value, and an absent key. -/
theorem C6_decoder_extraction_witness :
    extract_json_value ("\x7b\"k\":\"v\"\x7d".toList) ("k".toList) = some ("v".toList) ∧
      extract_json_value ("\x7b\"k\":42\x7d".toList) ("k".toList) = some ("42".toList) ∧
      extract_json_value ("\x7b\"k\":\"v\"\x7d".toList) ("missing".toList) = none :=
  ⟨C6_decoder_extraction.1 _ _ ("v".toList) ("\x7d".toList) [] 1 (by decide) (by decide)
      (by decide) (by decide),
    C6_decoder_extraction.2.1 _ _ ['2'] [] [] '4' '\x7d' 1 (by decide) (by decide)
      (by decide) (by decide) (by decide) (by decide) (by decide),
    C6_decoder_extraction.2.2 _ _ (by decide)⟩

/-- C3, counterexample: for the realistic manifest `bigFiles` (700 scanned
`.txt` paths, a count `scan_directory` can produce), the body composed by
`sp_start_backup` into its fixed 8192-byte buffer is not the full intended
JSON body (manifest entries are lost to truncation), and some `snprintf`
call starts past the buffer end with a negative size argument — the
out-of-bounds-write condition.  This refutes the claim as stated. -/
theorem C3_counterexample_manifest_overflow :
    sp_payload_written c3sid c3name c3path bigFiles
        ≠ sp_payload_ideal c3sid c3name c3path bigFiles ∧
      sp_payload_oob c3sid c3name c3path bigFiles = true := by
  constructor
  · intro h
    have h1 := sp_payload_written_le c3sid c3name c3path bigFiles
    have hbig : bigFiles
        = "downloads/file.txt".toList :: List.replicate 699 ("downloads/file.txt".toList) := by
      rw [bigFiles, show (700 : Nat) = 699 + 1 from rfl, List.replicate_succ]
    have h2 : (sp_payload_ideal c3sid c3name c3path bigFiles).length = 14834 := by
      rw [hbig, ideal_len]
      have hh : (headPiece c3sid c3name c3path).length = 120 := by decide
      have hf : ("downloads/file.txt".toList).length = 18 := by decide
      simp only [List.map_cons, List.map_replicate, List.sum_cons, List.sum_replicate,
        hf, hh, smul_eq_mul]
    rw [h] at h1
    omega
  · decide

/-- C3, amended: whenever the full JSON body fits the fixed 8192-byte
buffer (at most 8191 characters plus the terminator), `sp_start_backup`
composes it without truncation or buffer overflow, embedding the session
id, backup name, backup path and every manifest entry in order; the
counterexample shows this fails for larger manifests. -/
theorem C3_payload_safe_when_it_fits (sid name path : List Char) (files : List (List Char))
    (hfit : (sp_payload_ideal sid name path files).length ≤ 8191) :
    sp_payload_written sid name path files = sp_payload_ideal sid name path files ∧
      sp_payload_oob sid name path files = false ∧
      ∀ fl ∈ files, fl <:+: sp_payload_written sid name path files := by
  have hsum : ((payloadPieces sid name path files).map List.length).sum
      = (sp_payload_ideal sid name path files).length := by
    rw [sp_payload_ideal, List.length_flatten]
  have hfit2 : ([] : List Char).length
      + ((payloadPieces sid name path files).map List.length).sum ≤ CAP - 1 := by
    simp only [List.length_nil, Nat.zero_add, hsum, CAP]
    omega
  have hexact := snprintf_fold_exact CAP (by norm_num [CAP])
    (payloadPieces sid name path files) [] hfit2
  simp only [List.length_nil, List.nil_append] at hexact
  have hw : sp_payload_written sid name path files = sp_payload_ideal sid name path files := by
    simp [sp_payload_written, sp_payload_state, hexact, sp_payload_ideal]
  refine ⟨hw, ?_, ?_⟩
  · simp [sp_payload_oob, sp_payload_state, hexact]
  · intro fl hfl
    rw [hw]
    obtain ⟨p, hp, hinf⟩ := mem_fileEntryPieces_infix files fl hfl
    have hpos : 0 < files.length := List.length_pos.mpr (List.ne_nil_of_mem hfl)
    have hp2 : p ∈ payloadPieces sid name path files := by
      simp only [payloadPieces, if_pos hpos, List.mem_cons, List.mem_append]
      tauto
    exact hinf.trans (List.infix_of_mem_flatten hp2)

/-- C3, witness: a small manifest whose body (102 characters) fits the
buffer, with the theorem applied to it. -/
theorem C3_payload_safe_when_it_fits_witness :
    (sp_payload_ideal ("s".toList) ("n".toList) ("p".toList) [("a.txt".toList)]).length ≤ 8191 ∧
      sp_payload_written ("s".toList) ("n".toList) ("p".toList) [("a.txt".toList)]
        = sp_payload_ideal ("s".toList) ("n".toList) ("p".toList) [("a.txt".toList)] ∧
      sp_payload_oob ("s".toList) ("n".toList) ("p".toList) [("a.txt".toList)] = false :=
  ⟨by decide,
    (C3_payload_safe_when_it_fits ("s".toList) ("n".toList) ("p".toList)
      [("a.txt".toList)] (by decide)).1,
    (C3_payload_safe_when_it_fits ("s".toList) ("n".toList) ("p".toList)
      [("a.txt".toList)] (by decide)).2.1⟩

/-- C4: a 2xx-accepted (200/201) sign-on response yields exactly the
extracted `sessionId` field; a non-2xx response or transport failure
yields no session id (and no task id); and a run whose sign-on produced no
session id — its body may still carry a `taskId` — exits 1 without ever
invoking sign-off. -/
theorem C4_signon_session_required :
    (∀ r : HttpResponse, (r.code = 200 ∨ r.code = 201) →
        (sp_sign_on (some r)).1 = extract_json_value r.body sessionIdKey) ∧
    (∀ r : HttpResponse, ¬(r.code = 200 ∨ r.code = 201) → sp_sign_on (some r) = (none, none)) ∧
    sp_sign_on none = (none, none) ∧
    (∀ (env : RunEnv) (pw : List Char), env.password = some pw →
        (scan_directory (env.arg_dir.getD ("downloads".toList)) env.dir).length ≠ 0 →
        (sp_sign_on env.signOnResp).1 = none →
        (runMain env).exit = 1 ∧ (runMain env).signOffCount = 0) := by
  refine ⟨?_, ?_, rfl, ?_⟩
  · intro r h
    simp [sp_sign_on, h]
  · intro r h
    simp [sp_sign_on, h]
  · intro env pw hpw hscan hsid
    rw [run_signon_none env pw hpw hscan hsid]
    exact ⟨rfl, rfl⟩

/-- C4, witness: a 201 response carrying a `taskId` but no `sessionId`
yields no session id, and that run exits 1 with zero sign-off calls. -/
theorem C4_signon_session_required_witness :
    (sp_sign_on (some bodyNoSid)).1 = none ∧
      (sp_sign_on (some bodyNoSid)).2 = some ("T0".toList) ∧
      (runMain envNoSid).exit = 1 ∧ (runMain envNoSid).signOffCount = 0 :=
  ⟨by decide, by decide,
    (C4_signon_session_required.2.2.2 envNoSid ("pw".toList) rfl (by decide) (by decide)).1,
    (C4_signon_session_required.2.2.2 envNoSid ("pw".toList) rfl (by decide) (by decide)).2⟩

/-- C7: once sign-on produced a session id, every execution path of the
run — submit failing, polling ending in failure, or in timeout, or in
success — invokes sign-off exactly once, and the sign-off outcome (the C
code discards the curl result) never changes the run's result or exit
code. -/
theorem C7_signoff_exactly_once :
    ∀ (env : RunEnv) (pw sid : List Char), env.password = some pw →
      (scan_directory (env.arg_dir.getD ("downloads".toList)) env.dir).length ≠ 0 →
      (sp_sign_on env.signOnResp).1 = some sid →
      (runMain env).signOffCount = 1 ∧
      (∀ b, runMain { env with signOffFails := b } = runMain env) := by
  intro env pw sid hpw hscan hsid
  refine ⟨?_, fun b => runMain_ignores_signoff_result env b⟩
  cases hsub : sp_start_backup_task env.submitResp with
  | none => rw [run_submit_none env pw sid hpw hscan hsid hsub]
  | some tid => rw [run_submit_some env pw sid tid hpw hscan hsid hsub]

/-- C7, witness: submit fails after a successful sign-on — sign-off is
still invoked exactly once, independently of the sign-off outcome. -/
theorem C7_signoff_exactly_once_witness :
    (runMain envBase).signOffCount = 1 ∧
      runMain { envBase with signOffFails := true } = runMain envBase :=
  ⟨(C7_signoff_exactly_once envBase ("pw".toList) ("SID1".toList) rfl (by decide)
      (by decide)).1,
    (C7_signoff_exactly_once envBase ("pw".toList) ("SID1".toList) rfl (by decide)
      (by decide)).2 true⟩

/-- C8: a run that finds zero `.txt` files prints the warning and exits 0,
with no HTTP request of any kind and no sign-off. -/
theorem C8_no_txt_files_nothing_to_do :
    ∀ (env : RunEnv) (pw : List Char), env.password = some pw →
      (scan_directory (env.arg_dir.getD ("downloads".toList)) env.dir).length = 0 →
      (runMain env).exit = 0 ∧ (runMain env).requests = [] ∧
      (runMain env).warnedNoFiles = true ∧ (runMain env).signOffCount = 0 := by
  intro env pw hpw hscan
  rw [run_no_files env pw hpw hscan]
  exact ⟨rfl, rfl, rfl, rfl⟩

/-- C8, witness: a directory with no `.txt` entries. -/
theorem C8_no_txt_files_nothing_to_do_witness :
    (runMain envEmptyDir).exit = 0 ∧ (runMain envEmptyDir).requests = [] ∧
      (runMain envEmptyDir).warnedNoFiles = true :=
  ⟨(C8_no_txt_files_nothing_to_do envEmptyDir ("pw".toList) rfl (by decide)).1,
    (C8_no_txt_files_nothing_to_do envEmptyDir ("pw".toList) rfl (by decide)).2.1,
    (C8_no_txt_files_nothing_to_do envEmptyDir ("pw".toList) rfl (by decide)).2.2.1⟩

/-- C9: an unopenable scan directory makes `scan_directory` return the
empty list rather than a distinct error, so the run is exactly the
zero-files run: same result record (warning printed, exit 0, no HTTP
request) as with an empty directory. -/
theorem C9_unopenable_dir_indistinguishable :
    ∀ dp : List Char, scan_directory dp DirState.unopenable = [] ∧
      ∀ (env : RunEnv) (pw : List Char), env.password = some pw →
        env.dir = DirState.unopenable →
        runMain env = runMain { env with dir := DirState.entries [] } ∧
        runMain env = ⟨0, [], 0, true⟩ := by
  intro dp
  refine ⟨rfl, ?_⟩
  intro env pw hpw hdir
  have h1 : runMain env = ⟨0, [], 0, true⟩ := by
    apply run_no_files env pw hpw
    rw [hdir]
    rfl
  have h2 : runMain { env with dir := DirState.entries [] } = ⟨0, [], 0, true⟩ :=
    run_no_files _ pw hpw rfl
  exact ⟨h1.trans h2.symm, h1⟩

/-- C9, witness: the unopenable-directory environment behaves like the
empty-directory one and exits 0 with no requests. -/
theorem C9_unopenable_dir_indistinguishable_witness :
    runMain envUnopen = runMain { envUnopen with dir := DirState.entries [] } ∧
      runMain envUnopen = ⟨0, [], 0, true⟩ :=
  (C9_unopenable_dir_indistinguishable ("downloads".toList)).2 envUnopen ("pw".toList)
    rfl rfl

/-- C10: the configured backup directory (SP_BACKUP_DIR) has no effect on
any request of the run; the submitted job request is built with the CLI
scan directory (positional argument, default "downloads") as its backup
path; and the intended body embeds `"backupPath":"` followed by exactly
that path. -/
theorem C10_backupPath_from_cli :
    (∀ (env : RunEnv) (b : List Char),
        runMain { env with backup_directory := b } = runMain env) ∧
    (∀ (env : RunEnv) (pw sid : List Char), env.password = some pw →
        (scan_directory (env.arg_dir.getD ("downloads".toList)) env.dir).length ≠ 0 →
        (sp_sign_on env.signOnResp).1 = some sid →
        (runMain env).requests.get? 1 = some (mkBackupReq env.server_url sid env.now_name
          (env.arg_dir.getD ("downloads".toList))
          (scan_directory (env.arg_dir.getD ("downloads".toList)) env.dir))) ∧
    (∀ sid name path files,
        (bpLit ++ path) <:+: sp_payload_ideal sid name path files) := by
  refine ⟨fun env b => runMain_ignores_backup_directory env b, ?_, ?_⟩
  · intro env pw sid hpw hscan hsid
    cases hsub : sp_start_backup_task env.submitResp with
    | none =>
      rw [run_submit_none env pw sid hpw hscan hsid hsub]
      rfl
    | some tid =>
      rw [run_submit_some env pw sid tid hpw hscan hsid hsub]
      rfl
  · intro sid name path files
    refine ⟨"\x7b\"sessionId\":\"".toList ++ sid ++ "\",\"backupName\":\"".toList ++ name
      ++ "\",\"backupType\":\"ceph_downloads\",".toList,
      '"' :: (payloadPieces sid name path files).tail.flatten, ?_⟩
    simp [sp_payload_ideal, payloadPieces, headPiece, List.append_assoc]

/-- C10, witness: concrete run — the second request is the backup request
for the default "downloads" directory — plus the config-independence and
body-embedding facts at concrete inputs. -/
theorem C10_backupPath_from_cli_witness :
    runMain { envBase with backup_directory := "/elsewhere".toList } = runMain envBase ∧
      (runMain envBase).requests.get? 1 = some (mkBackupReq envBase.server_url
        ("SID1".toList) envBase.now_name ("downloads".toList)
        (scan_directory ("downloads".toList) okDir)) ∧
      (bpLit ++ c3path) <:+:
        sp_payload_ideal c3sid c3name c3path [("downloads/file.txt".toList)] :=
  ⟨C10_backupPath_from_cli.1 envBase ("/elsewhere".toList),
    C10_backupPath_from_cli.2.1 envBase ("pw".toList) ("SID1".toList) rfl (by decide)
      (by decide),
    C10_backupPath_from_cli.2.2 c3sid c3name c3path [("downloads/file.txt".toList)]⟩
